import Mathlib

/-!
# Verification of the realtime EEG analyzer

Shallow embedding of `src/realtime_analyzer/src/app/ingest.py`,
`channel_quality.py` and `host.py`.

Modelling conventions:
* byte sequences are `List Nat` whose members are < 256 where relevant;
* numpy 2-D arrays are `Arr2`: a column count plus a list of rows;
* Python floats are modelled as rationals `ℚ` (the code never relies on
  rounding for the properties checked here; `inf`/`nan` never arise on
  the modelled paths);
* channel names are kept as their UTF-8 byte sequences (Python decodes
  them to `str`; UTF-8 decoding is injective on valid sequences, so
  equality comparisons agree);
* `Python int(x)` truncation toward zero is `truncToInt`.
-/

namespace EEG

/-- A numpy 2-D array: an explicit column count (numpy keeps the shape even
when there are zero rows) plus the list of rows. `data.length` is `shape[0]`,
`cols` is `shape[1]`, `size = shape[0] * shape[1]`. -/
structure Arr2 (α : Type) where
  cols : Nat
  data : List (List α)
  deriving DecidableEq, Repr

namespace Arr2

def rows (a : Arr2 α) : Nat := a.data.length

def size (a : Arr2 α) : Nat := a.data.length * a.cols

/-- Column `c` of the array, as done by `signals.T` row extraction. -/
def col (a : Arr2 α) (dflt : α) (c : Nat) : List α :=
  a.data.map (fun row => row.getD c dflt)

end Arr2

/-- Decode two bytes as a little-endian signed 16-bit integer
(numpy dtype `"<i2"`). -/
def decodeInt16 (lo hi : Nat) : Int :=
  let v : Nat := lo + 256 * hi
  if v < 32768 then (v : Int) else (v : Int) - 65536

/-- `type_map = {0: "eeg", 1: "emg", 2: "eog", 3: "stim", 255: "misc"}` with
`.get(..., "misc")` default, from `ingest.py`. -/
def typeMap (b : Nat) : String :=
  if b = 0 then "eeg"
  else if b = 1 then "emg"
  else if b = 2 then "eog"
  else if b = 3 then "stim"
  else "misc"

/-- Strict UTF-8 validity of a byte sequence, as required by Python's
`bytes.decode("utf-8")`: no overlong forms, no surrogates, nothing above
U+10FFFF. An invalid name raises `UnicodeDecodeError` in the source, which
the surrounding `except` turns into a `None` result. -/
def validUtf8 : List Nat → Bool
  | [] => true
  | b :: rest =>
    if b < 0x80 then validUtf8 rest
    else if 0xC2 ≤ b ∧ b ≤ 0xDF then
      match rest with
      | c1 :: r => (0x80 ≤ c1 && c1 ≤ 0xBF) && validUtf8 r
      | [] => false
    else if 0xE0 ≤ b ∧ b ≤ 0xEF then
      match rest with
      | c1 :: c2 :: r =>
        let lo1 := if b = 0xE0 then 0xA0 else 0x80
        let hi1 := if b = 0xED then 0x9F else 0xBF
        (lo1 ≤ c1 && c1 ≤ hi1) && (0x80 ≤ c2 && c2 ≤ 0xBF) && validUtf8 r
      | _ => false
    else if 0xF0 ≤ b ∧ b ≤ 0xF4 then
      match rest with
      | c1 :: c2 :: c3 :: r =>
        let lo1 := if b = 0xF0 then 0x90 else 0x80
        let hi1 := if b = 0xF4 then 0x8F else 0xBF
        (lo1 ≤ c1 && c1 ≤ hi1) && (0x80 ≤ c2 && c2 ≤ 0xBF) &&
          (0x80 ≤ c3 && c3 ≤ 0xBF) && validUtf8 r
      | _ => false
    else false

/-- Result of `parse_eeg_binary_payload_v4`: the header lists plus the
signal and impedance matrices (lists of rows). Channel names are kept as
byte sequences (see module comment). -/
structure RawFrame where
  ch_names : List (List Nat)
  ch_types : List String
  signals : List (List Int)
  impedance : List (List Nat)
  deriving DecidableEq, Repr

/-- `name_bytes.split(b"\x00", 1)[0]`: the bytes before the first NUL. -/
def nameBytesAt (data : List Nat) (i : Nat) : List Nat :=
  ((data.drop (4 + i * 10)).take 8).takeWhile (fun b => b ≠ 0)

/-- Shallow embedding of `parse_eeg_binary_payload_v4` (ingest.py).

Header: version(1) + num_channels(1) + reserved(2), then per channel
name(8) + type(1) + reserved(1).  Sample record: signals(ch*2) + accel(6)
+ gyro(6) + impedance(ch*1); signals little-endian int16, impedance uint8.
The numpy stride-tricks gather is embedded as direct byte indexing: record
`m` occupies bytes `[headerSize + m*sampleSize, headerSize + (m+1)*sampleSize)`,
its signal value for channel `c` is bytes `2c, 2c+1`, its impedance value
for channel `c` is byte `2*numCh + 12 + c`.  Exceptions (only the UTF-8
decode of a channel name can raise on the modelled paths) are caught by the
source's `except` and produce `None`, embedded as the `validUtf8` test. -/
def parse (data : List Nat) : Option RawFrame :=
  if data.length < 4 then none
  else
    let version := data.getD 0 0
    let numCh := data.getD 1 0
    if version ≠ 4 then none
    else
      let headerSize := 4 + numCh * 10
      if data.length < headerSize then none
      else
        let names := (List.range numCh).map (fun i => nameBytesAt data i)
        if names.all validUtf8 then
          let types := (List.range numCh).map
            (fun i => typeMap (data.getD (4 + i * 10 + 8) 0))
          let sampleSize := numCh * 2 + 6 + 6 + numCh
          let numSamples := (data.length - headerSize) / sampleSize
          if numSamples = 0 then
            some { ch_names := names, ch_types := types,
                   signals := [], impedance := [] }
          else
            let signals := (List.range numSamples).map (fun m =>
              (List.range numCh).map (fun c =>
                decodeInt16
                  (data.getD (headerSize + m * sampleSize + 2 * c) 0)
                  (data.getD (headerSize + m * sampleSize + 2 * c + 1) 0)))
            let impedance := (List.range numSamples).map (fun m =>
              (List.range numCh).map (fun c =>
                data.getD (headerSize + m * sampleSize + numCh * 2 + 12 + c) 0))
            some { ch_names := names, ch_types := types,
                   signals := signals, impedance := impedance }
        else none

/-! ## Configuration (`config/env.py` `Settings`), thresholds as rationals. -/

/-- The tunable settings used by the tracker and the host
(`config/env.py`).  Functions take the configuration as a parameter; the
spec's "configured threshold" quantifies over it.  `default` mirrors the
env-var defaults. -/
structure Config where
  channel_zero_ratio_threshold : ℚ
  channel_flatline_ptp_threshold : ℤ
  channel_bad_impedance_threshold : ℕ
  channel_bad_impedance_ratio : ℚ
  channel_unknown_impedance_ratio : ℚ
  analysis_window_seconds : ℚ
  deriving DecidableEq, Repr

def Config.default : Config :=
  { channel_zero_ratio_threshold := 98 / 100
    channel_flatline_ptp_threshold := 5
    channel_bad_impedance_threshold := 200
    channel_bad_impedance_ratio := 1 / 2
    channel_unknown_impedance_ratio := 3 / 4
    analysis_window_seconds := 2 }

/-! ## `channel_quality.py` — `ChannelQualityTracker` -/

/-- Signed 16-bit wraparound, used to model numpy's `np.ptp` on an `int16`
array (the peak-to-peak subtraction overflows in `int16`). -/
def wrap16 (z : ℤ) : ℤ := (z + 32768) % 65536 - 32768

/-- `np.ptp` (max minus min) of an `int16` column. -/
def ptpInt16 (col : List ℤ) : ℤ :=
  wrap16 (col.foldl max (col.headD 0) - col.foldl min (col.headD 0))

/-- A reported reason.  The source formats these as strings such as
`f"zero-fill {ratio:.0%}"`; the embedding keeps the tag and the exact ratio
instead of the rendered percentage text. -/
inductive Reason where
  | zeroFill (ratio : ℚ)
  | impedanceHigh (ratio : ℚ)
  | impedanceUnknown (ratio : ℚ)
  | flatline
  deriving DecidableEq, Repr

/-- `ChannelQualityMeta` (types.py), ratios as rationals. -/
structure ChannelMeta where
  status : String
  reasons : List Reason
  zero_ratio : ℚ
  bad_impedance_ratio : ℚ
  unknown_impedance_ratio : ℚ
  flatline : Bool
  chType : String
  has_warning : Bool
  deriving DecidableEq, Repr

/-- `ChannelQualityTracker` state.  The per-channel numpy counter vectors
become lists indexed by channel; `_dirty`, `_cached_bad_channels` and
`_cached_report` are the memoization fields.  Channel names are UTF-8 byte
sequences. -/
structure Tracker where
  ch_names : List (List Nat)
  ch_types : List String
  total_samples : List ℕ
  zero_samples : List ℕ
  high_impedance_samples : List ℕ
  unknown_impedance_samples : List ℕ
  flatline_detected : List Bool
  dirty : Bool
  cached_bad_channels : List (List Nat)
  cached_report : List (List Nat × ChannelMeta)
  deriving DecidableEq, Repr

namespace Tracker

/-- `num_channels = len(ch_names)`. -/
def numChannels (t : Tracker) : Nat := t.ch_names.length

/-- `analysis_indices`: channel types in `{"eeg", "emg", "eog"}`. -/
def analysisIdx (t : Tracker) : List Bool :=
  t.ch_types.map (fun ty => ty = "eeg" || ty = "emg" || ty = "eog")

/-- `ChannelQualityTracker.__init__`: zeroed counters, dirty, empty caches. -/
def init (ch_names : List (List Nat)) (ch_types : List String) : Tracker :=
  { ch_names := ch_names
    ch_types := ch_types
    total_samples := List.replicate ch_names.length 0
    zero_samples := List.replicate ch_names.length 0
    high_impedance_samples := List.replicate ch_names.length 0
    unknown_impedance_samples := List.replicate ch_names.length 0
    flatline_detected := List.replicate ch_names.length false
    dirty := true
    cached_bad_channels := []
    cached_report := [] }

/-- `ChannelQualityTracker.update`.  Early-returns (a no-op) when the
signal batch has zero total elements or its column count differs from the
tracker's channel count; otherwise adds the batch row count to every
channel's total, and for analysis channels counts zero samples, flatline
(`ptp <= threshold`, `int16` arithmetic), and — when the impedance batch has
matching shape — unknown (`== 255`) and high (`>= threshold` and not
unknown) impedance samples.  Sets the dirty flag. -/
def update (cfg : Config) (t : Tracker) (signals : Arr2 ℤ) (impedances : Arr2 ℕ) :
    Tracker :=
  if signals.size = 0 ∨ signals.cols ≠ t.numChannels then t
  else
    let rows := signals.data.length
    let ai := t.analysisIdx
    let total' := t.total_samples.map (fun n => n + rows)
    if ai.any id then
      let zero' := t.zero_samples.mapIdx (fun c z =>
        if ai.getD c false then z + (signals.col 0 c).countP (fun v => v = 0) else z)
      let flat' := t.flatline_detected.mapIdx (fun c f =>
        if ai.getD c false then
          f || decide (ptpInt16 (signals.col 0 c) ≤ cfg.channel_flatline_ptp_threshold)
        else f)
      if impedances.size ≠ 0 ∧ impedances.cols = t.numChannels ∧
          impedances.data.length = signals.data.length then
        let unknown' := t.unknown_impedance_samples.mapIdx (fun c z =>
          if ai.getD c false then z + (impedances.col 0 c).countP (fun v => v = 255)
          else z)
        let high' := t.high_impedance_samples.mapIdx (fun c z =>
          if ai.getD c false then
            z + (impedances.col 0 c).countP
              (fun v => cfg.channel_bad_impedance_threshold ≤ v ∧ v ≠ 255)
          else z)
        { t with total_samples := total', zero_samples := zero',
                 flatline_detected := flat',
                 unknown_impedance_samples := unknown',
                 high_impedance_samples := high', dirty := true }
      else
        { t with total_samples := total', zero_samples := zero',
                 flatline_detected := flat', dirty := true }
    else
      { t with total_samples := total', dirty := true }

/-- The per-channel record computed by the `build_report` loop body. -/
def channelMeta (cfg : Config) (t : Tracker) (idx : Nat) : ChannelMeta :=
  let chType := t.ch_types.getD idx ""
  let total : ℚ := max (t.total_samples.getD idx 0) 1
  let zero_ratio : ℚ := (t.zero_samples.getD idx 0 : ℚ) / total
  let high_ratio : ℚ := (t.high_impedance_samples.getD idx 0 : ℚ) / total
  let unknown_ratio : ℚ := (t.unknown_impedance_samples.getD idx 0 : ℚ) / total
  let analysis := t.analysisIdx.getD idx false
  let flat := t.flatline_detected.getD idx false
  if analysis then
    let reasons0 : List Reason := []
    let status0 := "good"
    let status1 :=
      if cfg.channel_zero_ratio_threshold ≤ zero_ratio then "bad" else status0
    let reasons1 :=
      if cfg.channel_zero_ratio_threshold ≤ zero_ratio then
        reasons0 ++ [Reason.zeroFill zero_ratio]
      else reasons0
    let status2 :=
      if cfg.channel_bad_impedance_ratio ≤ high_ratio then "bad" else status1
    let reasons2 :=
      if cfg.channel_bad_impedance_ratio ≤ high_ratio then
        reasons1 ++ [Reason.impedanceHigh high_ratio]
      else if cfg.channel_unknown_impedance_ratio ≤ unknown_ratio then
        reasons1 ++ [Reason.impedanceUnknown unknown_ratio]
      else reasons1
    let reasons3 := if flat then reasons2 ++ [Reason.flatline] else reasons2
    { status := status2, reasons := reasons3,
      zero_ratio := zero_ratio, bad_impedance_ratio := high_ratio,
      unknown_impedance_ratio := unknown_ratio, flatline := flat,
      chType := chType,
      has_warning := status2 ≠ "bad" ∧ reasons3 ≠ [] }
  else
    { status := "good", reasons := [], zero_ratio := 0,
      bad_impedance_ratio := 0, unknown_impedance_ratio := 0,
      flatline := false, chType := chType, has_warning := false }

/-- The report recomputation of `build_report` (the branch taken when the
tracker is dirty): the per-channel records in channel order, and the names
whose status came out `"bad"`, in channel order. -/
def computeReport (cfg : Config) (t : Tracker) :
    List (List Nat) × List (List Nat × ChannelMeta) :=
  let report := (List.range t.ch_names.length).map
    (fun idx => (t.ch_names.getD idx [], channelMeta cfg t idx))
  let bad := (List.range t.ch_names.length).filterMap
    (fun idx => if (channelMeta cfg t idx).status = "bad"
                then some (t.ch_names.getD idx []) else none)
  (bad, report)

/-- `ChannelQualityTracker.build_report`: returns the cached pair when the
counters are unchanged since the last call, otherwise recomputes, caches,
and clears the dirty flag. -/
def buildReport (cfg : Config) (t : Tracker) :
    Tracker × (List (List Nat) × List (List Nat × ChannelMeta)) :=
  if ¬ t.dirty then (t, (t.cached_bad_channels, t.cached_report))
  else
    let r := computeReport cfg t
    ({ t with cached_bad_channels := r.1, cached_report := r.2, dirty := false },
     r)

end Tracker

/-! ## `host.py` — `RealtimeApplicationHost` -/

/-- Python `int(x)` on a float: truncation toward zero. -/
def truncToInt (q : ℚ) : ℤ := Int.tdiv q.num q.den

/-- Python row slicing `arr[-m:]` with `m` an arbitrary integer:
`m > 0` keeps the last `m` rows; `m = 0` keeps everything (`-0 == 0`);
`m < 0` is `arr[(-m):]`, dropping the first `-m` rows. -/
def pySliceLast (a : Arr2 α) (m : ℤ) : Arr2 α :=
  if 0 < m then { a with data := a.data.drop (a.data.length - m.toNat) }
  else if m = 0 then a
  else { a with data := a.data.drop (-m).toNat }

/-- `np.vstack`. -/
def vstack (a b : Arr2 α) : Arr2 α := { cols := a.cols, data := a.data ++ b.data }

/-- The buffer-maintenance step of `_upsert_user_state` (host.py lines
326–334): replace an empty buffer by the batch, otherwise `vstack`; then,
when the row count exceeds `maxBuf = int(sampling_rate * 60)`, slice
`buffer[-maxBuf:]`. -/
def appendTrim (buf signals : Arr2 ℤ) (maxBuf : ℤ) : Arr2 ℤ :=
  let b1 := if buf.size = 0 then signals else vstack buf signals
  if maxBuf < (b1.data.length : ℤ) then pySliceLast b1 maxBuf else b1

/-- `DeviceProfile` (types.py), without the opaque `mne_info` object (the
montage setup only logs a warning and has no effect on the modelled
state). -/
structure ProfileM where
  ch_names : List (List Nat)
  ch_types : List String
  sampling_rate : ℚ
  lsb_to_volts : ℚ
  bad_channels : Option (List (List Nat))
  channel_report : Option (List (List Nat × ChannelMeta))
  deriving DecidableEq, Repr

/-- `UserState` (state.py). -/
structure UserStateM where
  profile : ProfileM
  buffer : Arr2 ℤ
  tracker : Tracker
  deriving DecidableEq, Repr

/-- The reset test of `_upsert_user_state`: reset when the device has no
state, or its profile's channel names, channel types, or sampling rate
(beyond absolute tolerance `1e-6`) differ from the inbound frame's. -/
def needsResetB (old : Option UserStateM) (ch_names : List (List Nat))
    (ch_types : List String) (sampling_rate : ℚ) : Bool :=
  match old with
  | none => true
  | some st =>
      decide (st.profile.ch_names ≠ ch_names) ||
      decide (st.profile.ch_types ≠ ch_types) ||
      decide ((1 : ℚ) / 1000000 < |st.profile.sampling_rate - sampling_rate|)

/-- Observable outcome of `_upsert_user_state`: the user-state map, the
analysis-results table keyed by (device id, application id), and the list
of application ids whose `on_profile_initialized` hook was invoked, in
registration order. -/
structure HostOut (R : Type) where
  userStates : String → Option UserStateM
  results : String → String → Option R
  hooks : List String

/-- Shallow embedding of `RealtimeApplicationHost._upsert_user_state`.

Skips entirely when `lsb_to_volts == 0`.  When `needsResetB` holds it
builds a fresh profile, a fresh `Tracker.init` seeded with the frame's
channel lists, an empty `(0, num_channels)` buffer, pops the device's
analysis results and invokes `on_profile_initialized` on every registered
application.  Then (reset or not) it stores `lsb_to_volts`, runs
`tracker.update` and `build_report`, writes the bad-channel list and
report into the profile (`with_updated_quality`), and appends/trims the
buffer with bound `int(profile["sampling_rate"] * 60)`. -/
def upsertUserState (cfg : Config) (apps : List String)
    (userStates : String → Option UserStateM)
    (results : String → String → Option R)
    (uid : String) (sampling_rate lsb_to_volts : ℚ)
    (ch_names : List (List Nat)) (ch_types : List String)
    (signals : Arr2 ℤ) (impedances : Arr2 ℕ) : HostOut R :=
  if lsb_to_volts = 0 then ⟨userStates, results, []⟩
  else
    let old := userStates uid
    let reset := needsResetB old ch_names ch_types sampling_rate
    let st0 : UserStateM :=
      if reset then
        { profile := { ch_names := ch_names, ch_types := ch_types,
                       sampling_rate := sampling_rate,
                       lsb_to_volts := lsb_to_volts,
                       bad_channels := none, channel_report := none }
          buffer := { cols := ch_names.length, data := [] }
          tracker := Tracker.init ch_names ch_types }
      else old.getD { profile := { ch_names := ch_names, ch_types := ch_types,
                                   sampling_rate := sampling_rate,
                                   lsb_to_volts := lsb_to_volts,
                                   bad_channels := none, channel_report := none }
                      buffer := { cols := ch_names.length, data := [] }
                      tracker := Tracker.init ch_names ch_types }
    let results1 : String → String → Option R :=
      if reset then fun u a => if u = uid then none else results u a else results
    let hooks := if reset then apps else []
    let prof1 := { st0.profile with lsb_to_volts := lsb_to_volts }
    let br := (st0.tracker.update cfg signals impedances).buildReport cfg
    let prof2 := { prof1 with bad_channels := some br.2.1,
                              channel_report := some br.2.2 }
    let buf := appendTrim st0.buffer signals (truncToInt (prof2.sampling_rate * 60))
    let st1 : UserStateM := { profile := prof2, buffer := buf, tracker := br.1 }
    ⟨fun u => if u = uid then some st1 else userStates u, results1, hooks⟩

/-! ### The analysis worker (`_analysis_worker`) -/

/-- The outcome of one `application.analyze` call: a returned value
(possibly `None`) or a raised exception. -/
inductive Outcome (R : Type) where
  | ok (r : Option R)
  | raised

/-- A registered realtime application: its `app_id` and its `analyze`
behaviour for this cycle. -/
structure AppM (R : Type) where
  id : String
  analyze : String → UserStateM → Arr2 ℤ → Outcome R

/-- Observable outcome of one scheduler cycle: the results table and, in
execution order, the `analyze` invocations `(device id, app id, window)`. -/
structure CycleOut (R : Type) where
  results : String → String → Option R
  calls : List (String × String × Arr2 ℤ)

/-- One `application.analyze` call of the worker's inner loop: record the
invocation, then store the result under (device id, app id) when it is
non-`None`, and leave the table untouched when it is `None` or the call
raised (the source catches, logs and continues). -/
def appStep (uid : String) (st : UserStateM) (window : Arr2 ℤ)
    (acc : CycleOut R) (app : AppM R) : CycleOut R :=
  let acc3 : CycleOut R := { acc with calls := acc.calls ++ [(uid, app.id, window)] }
  match app.analyze uid st window with
  | Outcome.ok none => acc3
  | Outcome.ok (some v) =>
      { acc3 with results := fun u a =>
          if u = uid ∧ a = app.id then some v else acc3.results u a }
  | Outcome.raised => acc3

/-- Processing of one snapshot device inside `_analysis_worker`'s loop:
compute `analysis_samples = int(sampling_rate * analysis_window_seconds)`;
skip the device when that is zero or the buffer has fewer rows; otherwise
slice `buffer[-analysis_samples:, :]` and run every registered application
on it in registration order via `appStep`. -/
def processDevice (cfg : Config) (apps : List (AppM R)) (acc : CycleOut R)
    (uid : String) (st : UserStateM) : CycleOut R :=
  let n : ℤ := truncToInt (st.profile.sampling_rate * cfg.analysis_window_seconds)
  if n = 0 ∨ (st.buffer.data.length : ℤ) < n then acc
  else
    apps.foldl (appStep uid st (pySliceLast st.buffer n)) acc

/-- One cycle of `_analysis_worker` over a snapshot of the user states. -/
def analysisCycle (cfg : Config) (apps : List (AppM R))
    (snapshot : List (String × UserStateM))
    (results : String → String → Option R) : CycleOut R :=
  snapshot.foldl (fun acc p => processDevice cfg apps acc p.1 p.2) ⟨results, []⟩

/-! ### The RabbitMQ consumer callback (`_rabbitmq_consumer`) -/

/-- A message-header value as delivered by RabbitMQ: absent, or one of the
Python types `_coerce_float` distinguishes (`int`, `float`,
`decimal.Decimal`, `str`), or some other type. -/
inductive PyVal where
  | vNone
  | vInt (z : ℤ)
  | vFloat (q : ℚ)
  | vDecimal (q : ℚ)
  | vStr (s : String)
  | vOther
  deriving DecidableEq, Repr

/-- `int(digit string)` accumulator. -/
def natOfDigits (cs : List Char) : ℕ :=
  cs.foldl (fun n c => 10 * n + (c.toNat - 48)) 0

/-- Leading sign of a numeric literal: the sign as an integer and the rest. -/
def readSign : List Char → ℤ × List Char
  | '+' :: r => (1, r)
  | '-' :: r => (-1, r)
  | r => (1, r)

/-- Python `float(s)` on a plain numeric literal
`[sign] (digits [. digits] | . digits) [(e|E) [sign] digits]`, as a
rational; `none` models the `ValueError` on anything else.  (`inf`/`nan`
are not representable in `ℚ` and never arise on the modelled paths.) -/
def pyFloatOfString (s : String) : Option ℚ :=
  let cs := s.toList
  let sp := readSign cs
  let ip := sp.2.takeWhile Char.isDigit
  let cs1 := sp.2.dropWhile Char.isDigit
  let fparsed : List Char × List Char :=
    match cs1 with
    | '.' :: r => (r.takeWhile Char.isDigit, r.dropWhile Char.isDigit)
    | _ => ([], cs1)
  let fp := fparsed.1
  let cs2 := fparsed.2
  if ip.isEmpty ∧ fp.isEmpty then none
  else
    let mant : ℚ :=
      (sp.1 : ℚ) * ((natOfDigits ip : ℚ) + (natOfDigits fp : ℚ) / (10 : ℚ) ^ fp.length)
    match cs2 with
    | [] => some mant
    | e :: r =>
      if e = 'e' ∨ e = 'E' then
        let esp := readSign r
        let ed := esp.2.takeWhile Char.isDigit
        let rest := esp.2.dropWhile Char.isDigit
        if ed.isEmpty ∨ rest ≠ [] then none
        else some (mant * (10 : ℚ) ^ (esp.1 * (natOfDigits ed : ℤ)))
      else none

/-- One candidate's conversion attempt inside `_coerce_float`: `none` when
the candidate is skipped (`None`, non-numeric type, or a string that fails
`float(...)`). -/
def pyValToFloat : PyVal → Option ℚ
  | PyVal.vInt z => some (z : ℚ)
  | PyVal.vFloat q => some q
  | PyVal.vDecimal q => some q
  | PyVal.vStr s => pyFloatOfString s
  | _ => none

/-- `RealtimeApplicationHost._coerce_float`: returns the first candidate
converting to a non-zero float; `0.0` when at least one converted but all
to zero; `none` when no candidate converted. -/
def coerceFloat : List PyVal → Bool → Option ℚ
  | [], sawZero => if sawZero then some 0 else none
  | c :: rest, sawZero =>
    match pyValToFloat c with
    | none => coerceFloat rest sawZero
    | some v => if v ≠ 0 then some v else coerceFloat rest true

/-- The message attributes the consumer callback reads. -/
structure MsgHeaders where
  user_id : PyVal
  sampling_rate : PyVal
  lsb_to_volts : PyVal
  lsb_to_volts_str : PyVal
  deriving DecidableEq, Repr

/-- Shallow embedding of the consumer `callback` in `_rabbitmq_consumer`
(`body` is the zstd-decompressed payload; decompression itself is an
external library pass-through).  Returns `none` when the message is acked
without any state update — missing/non-string `user_id`, uncoercible
`sampling_rate`, uncoercible `lsb_to_volts`, `lsb_to_volts == 0.0`, a
payload the decoder rejects, or zero decoded samples — and otherwise the
`_upsert_user_state` outcome. -/
def consumeMessage (cfg : Config) (apps : List String)
    (userStates : String → Option UserStateM)
    (results : String → String → Option R)
    (h : MsgHeaders) (body : List Nat) : Option (HostOut R) :=
  let srv := coerceFloat [h.sampling_rate] false
  let lsbv := coerceFloat [h.lsb_to_volts, h.lsb_to_volts_str] false
  match h.user_id, srv with
  | PyVal.vStr uid, some sr =>
    match lsbv with
    | none => none
    | some l =>
      if l = 0 then none
      else
        match parse body with
        | none => none
        | some frame =>
          if frame.signals.length = 0 then none
          else
            some (upsertUserState cfg apps userStates results uid sr l
              frame.ch_names frame.ch_types
              { cols := frame.ch_names.length, data := frame.signals }
              { cols := frame.ch_names.length, data := frame.impedance })
  | _, _ => none

/-! ### Frame-layout abbreviations for the decoder theorems -/

/-- The declared channel count: byte 1 of the payload. -/
def numChOf (data : List Nat) : ℕ := data.getD 1 0

/-- Header size: 4 base bytes plus 10 descriptor bytes per channel. -/
def headerSizeOf (data : List Nat) : ℕ := 4 + numChOf data * 10

/-- Sample record size: `signals(ch*2) + accel(6) + gyro(6) + impedance(ch)`. -/
def sampleSizeOf (data : List Nat) : ℕ :=
  numChOf data * 2 + 6 + 6 + numChOf data

/-- Decoded sample count: `floor(remaining_bytes / record_size)`. -/
def numSamplesOf (data : List Nat) : ℕ :=
  (data.length - headerSizeOf data) / sampleSizeOf data

/-- The zero-fill ratio `build_report` computes for channel `idx`:
zero count over `max(total, 1)`. -/
def zeroRatioOf (t : Tracker) (idx : ℕ) : ℚ :=
  (t.zero_samples.getD idx 0 : ℚ) / max ((t.total_samples.getD idx 0 : ℕ) : ℚ) 1

/-! ## Theorems -/

/-- **C8.** Calling `build_report` twice with no intervening `update` returns
identical output both times, and the second call performs no recomputation:
on a tracker whose dirty flag is clear the function returns the cached
bad-channel list and report verbatim, leaving the state untouched, so it
recomputes only when the counters have changed (every counter change sets
the dirty flag). -/
theorem C8_build_report_memoized (cfg : Config) (t : Tracker) :
    (t.buildReport cfg).1.buildReport cfg = t.buildReport cfg ∧
    ((t.buildReport cfg).1.dirty = false) ∧
    (∀ t' : Tracker, t'.dirty = false →
      t'.buildReport cfg = (t', (t'.cached_bad_channels, t'.cached_report))) := by
  refine ⟨?_, ?_, ?_⟩
  · by_cases h : t.dirty
    · simp [Tracker.buildReport, h]
    · simp [Tracker.buildReport, h]
  · by_cases h : t.dirty
    · simp [Tracker.buildReport, h]
    · simp [Tracker.buildReport, h]
  · intro t' h
    simp [Tracker.buildReport, h]

/-- **C8 witness.** The memoization statement instantiated on a concrete
clean tracker. -/
theorem C8_build_report_memoized_witness :
    Tracker.buildReport Config.default
        { ch_names := [[67]], ch_types := ["eeg"],
          total_samples := [3], zero_samples := [1],
          high_impedance_samples := [0], unknown_impedance_samples := [0],
          flatline_detected := [false], dirty := false,
          cached_bad_channels := [[67]], cached_report := [] } =
      ({ ch_names := [[67]], ch_types := ["eeg"],
         total_samples := [3], zero_samples := [1],
         high_impedance_samples := [0], unknown_impedance_samples := [0],
         flatline_detected := [false], dirty := false,
         cached_bad_channels := [[67]], cached_report := [] },
       ([[67]], [])) :=
  (C8_build_report_memoized Config.default
    { ch_names := [[67]], ch_types := ["eeg"],
      total_samples := [3], zero_samples := [1],
      high_impedance_samples := [0], unknown_impedance_samples := [0],
      flatline_detected := [false], dirty := false,
      cached_bad_channels := [[67]], cached_report := [] }).2.2
    _ rfl

/-- **C10.** An `update` whose signal batch is empty (zero total elements)
or whose column count differs from the tracker's channel count is a
complete no-op: the tracker — counters, flatline flags, dirty flag and
caches — is returned unchanged, so a subsequent `build_report` returns the
same result as before the call. -/
theorem C10_update_mismatch_noop (cfg : Config) (t : Tracker)
    (signals : Arr2 ℤ) (impedances : Arr2 ℕ)
    (h : signals.size = 0 ∨ signals.cols ≠ t.numChannels) :
    t.update cfg signals impedances = t ∧
    (t.update cfg signals impedances).buildReport cfg = t.buildReport cfg := by
  have hu : t.update cfg signals impedances = t := by
    unfold Tracker.update
    rw [if_pos h]
  exact ⟨hu, by rw [hu]⟩

/-- **C10 witness.** A zero-element batch on a concrete one-channel
tracker. -/
theorem C10_update_mismatch_noop_witness :
    (Tracker.init [[67]] ["eeg"]).update Config.default ⟨1, []⟩ ⟨1, []⟩ =
      Tracker.init [[67]] ["eeg"] :=
  (C10_update_mismatch_noop Config.default (Tracker.init [[67]] ["eeg"])
    ⟨1, []⟩ ⟨1, []⟩ (Or.inl rfl)).1

/-- **C3.** For every tracker counter state and every analysis-eligible
channel (type `eeg`/`emg`/`eog`), if the channel's zero-fill ratio (zero
count over `max(total, 1)`) meets or exceeds the configured zero-ratio
threshold, then `build_report` marks the channel `"bad"` and puts its name
in the bad-channel list — whatever its high-impedance, unknown-impedance
and flatline statistics are — and the zero-fill reason comes first in the
channel's reason list (zero-fill, then high/unknown impedance, then
flatline). The dirty-flag hypothesis selects the recomputation path: a
clean tracker returns its cache, which by C8 is the recomputation's own
output. -/
theorem C3_zero_fill_forces_bad (cfg : Config) (t : Tracker) (idx : ℕ)
    (hdirty : t.dirty = true)
    (hidx : idx < t.ch_names.length)
    (hana : t.analysisIdx.getD idx false = true)
    (hzr : cfg.channel_zero_ratio_threshold ≤ zeroRatioOf t idx) :
    t.ch_names.getD idx [] ∈ (t.buildReport cfg).2.1 ∧
    (t.buildReport cfg).2.2.length = t.ch_names.length ∧
    ((t.buildReport cfg).2.2.getD idx ([], ⟨"", [], 0, 0, 0, false, "", false⟩)).1 =
      t.ch_names.getD idx [] ∧
    ((t.buildReport cfg).2.2.getD idx ([], ⟨"", [], 0, 0, 0, false, "", false⟩)).2.status =
      "bad" ∧
    ((t.buildReport cfg).2.2.getD idx ([], ⟨"", [], 0, 0, 0, false, "", false⟩)).2.reasons.head? =
      some (Reason.zeroFill (zeroRatioOf t idx)) := by
  have hzr' := hzr
  simp only [zeroRatioOf] at hzr'
  have hmeta : (Tracker.channelMeta cfg t idx).status = "bad" ∧
      (Tracker.channelMeta cfg t idx).reasons.head? =
        some (Reason.zeroFill (zeroRatioOf t idx)) := by
    simp only [Tracker.channelMeta, zeroRatioOf, hana]
    constructor
    · split_ifs <;> rfl
    · split_ifs <;> rfl
  have hbr : t.buildReport cfg = (⟨{ t with
      cached_bad_channels := (Tracker.computeReport cfg t).1,
      cached_report := (Tracker.computeReport cfg t).2,
      dirty := false }, Tracker.computeReport cfg t⟩) := by
    unfold Tracker.buildReport
    rw [hdirty]
    simp
  rw [hbr]
  refine ⟨?_, ?_, ?_, ?_, ?_⟩
  · exact List.mem_filterMap.2 ⟨idx, List.mem_range.2 hidx, by rw [if_pos hmeta.1]⟩
  · simp [Tracker.computeReport]
  · unfold Tracker.computeReport
    rw [List.getD_eq_getElem?_getD, List.getElem?_map, List.getElem?_range hidx]
    rfl
  · unfold Tracker.computeReport
    rw [List.getD_eq_getElem?_getD, List.getElem?_map, List.getElem?_range hidx]
    exact hmeta.1
  · unfold Tracker.computeReport
    rw [List.getD_eq_getElem?_getD, List.getElem?_map, List.getElem?_range hidx]
    exact hmeta.2

unseal Rat.add Rat.mul Rat.inv in
/-- **C3 witness.** A concrete one-channel tracker with 98 zero samples
out of 100 and otherwise clean statistics: the channel is reported bad. -/
theorem C3_zero_fill_forces_bad_witness :
    ([67] : List Nat) ∈
      ((Tracker.mk [[67]] ["eeg"] [100] [98] [0] [0] [false] true
        [] []).buildReport Config.default).2.1 :=
  (C3_zero_fill_forces_bad Config.default _ 0 rfl (by decide) (by decide)
    (by decide)).1

/-- **C2.** The decoder is a total function into `Option` — every error
path is an explicit `none`, never an exception (the source wraps the body
in `try/except` and returns `None`): it returns `none` when the input is
shorter than the 4-byte base header, when the version byte is not 4, and
when the declared channel count makes the per-channel descriptor region
exceed the buffer; and for a well-formed header (all checks pass and the
channel names decode as UTF-8) followed by fewer bytes than one complete
sample record it returns a successful result with zero-row signal and
impedance matrices whose header still declares the full channel width. -/
theorem C2_parse_error_handling (data : List Nat) :
    (data.length < 4 → parse data = none) ∧
    (4 ≤ data.length → data.getD 0 0 ≠ 4 → parse data = none) ∧
    (4 ≤ data.length → data.getD 0 0 = 4 →
      data.length < 4 + data.getD 1 0 * 10 → parse data = none) ∧
    (4 ≤ data.length → data.getD 0 0 = 4 →
      4 + data.getD 1 0 * 10 ≤ data.length →
      ((List.range (data.getD 1 0)).map (nameBytesAt data)).all validUtf8 = true →
      data.length - (4 + data.getD 1 0 * 10) <
        data.getD 1 0 * 2 + 6 + 6 + data.getD 1 0 →
      ∃ r, parse data = some r ∧ r.signals = [] ∧ r.impedance = [] ∧
        r.ch_names.length = data.getD 1 0 ∧
        r.ch_types.length = data.getD 1 0) := by
  refine ⟨?_, ?_, ?_, ?_⟩
  · intro h1
    simp only [parse]
    rw [if_pos h1]
  · intro h1 h2
    simp only [parse]
    rw [if_neg (not_lt.2 h1), if_pos h2]
  · intro h1 h2 h3
    simp only [parse]
    rw [if_neg (not_lt.2 h1), if_neg (not_not_intro h2), if_pos h3]
  · intro h1 h2 h3 h4 h5
    simp only [parse]
    rw [if_neg (not_lt.2 h1), if_neg (not_not_intro h2), if_neg (not_lt.2 h3),
      if_pos h4, if_pos (Nat.div_eq_of_lt h5)]
    exact ⟨_, rfl, rfl, rfl, by simp, by simp⟩

/-- **C2 witness.** Concrete instances of all four contract cases: a
truncated header, a wrong version byte, a channel count overrunning the
descriptor region, and a well-formed one-channel header with a truncated
sample area decoding to the empty matrices. -/
theorem C2_parse_error_handling_witness :
    parse [4, 1] = none ∧
    parse [5, 0, 0, 0] = none ∧
    parse [4, 2, 0, 0, 65, 66] = none ∧
    ∃ r, parse [4, 1, 0, 0, 67, 49, 0, 0, 0, 0, 0, 0, 0, 0, 9, 9] = some r ∧
      r.signals = [] ∧ r.impedance = [] ∧ r.ch_names.length = 1 ∧
      r.ch_types.length = 1 :=
  ⟨(C2_parse_error_handling [4, 1]).1 (by decide),
   (C2_parse_error_handling [5, 0, 0, 0]).2.1 (by decide) (by decide),
   (C2_parse_error_handling [4, 2, 0, 0, 65, 66]).2.2.1 (by decide) (by decide)
     (by decide),
   (C2_parse_error_handling [4, 1, 0, 0, 67, 49, 0, 0, 0, 0, 0, 0, 0, 0, 9, 9]).2.2.2
     (by decide) (by decide) (by decide) (by decide) (by decide)⟩

lemma decodeInt16_bounds (lo hi : ℕ) (hlo : lo < 256) (hhi : hi < 256) :
    -32768 ≤ decodeInt16 lo hi ∧ decodeInt16 lo hi < 32768 := by
  simp only [decodeInt16]
  split <;> omega

lemma getD_lt_256 (data : List Nat) (h256 : ∀ b ∈ data, b < 256) (i : ℕ) :
    data.getD i 0 < 256 := by
  by_cases h : i < data.length
  · rw [List.getD_eq_getElem _ _ h]
    exact h256 _ (List.getElem_mem h)
  · rw [List.getD_eq_default _ _ (le_of_not_lt h)]
    omega

lemma getD_map_range {α : Type} (f : ℕ → α) (n i : ℕ) (d : α) (h : i < n) :
    ((List.range n).map f).getD i d = f i := by
  rw [List.getD_eq_getElem?_getD, List.getElem?_map, List.getElem?_range h,
    Option.map_some', Option.getD_some]

lemma rowByte_lt {m M x ss : ℕ} (hm : m < M) (hx : x < ss) :
    m * ss + x < M * ss := by
  have h2 : (m + 1) * ss ≤ M * ss := Nat.mul_le_mul_right ss (by omega)
  have e : (m + 1) * ss = m * ss + ss := by ring
  omega

/-- Closed form of the decoder on any well-formed version-4 frame. -/
lemma parse_wf_eq (data : List Nat)
    (h1 : 4 ≤ data.length) (h2 : data.getD 0 0 = 4)
    (h3 : headerSizeOf data ≤ data.length)
    (h4 : ((List.range (numChOf data)).map (nameBytesAt data)).all validUtf8
      = true) :
    parse data = some
      { ch_names := (List.range (numChOf data)).map (nameBytesAt data)
        ch_types := (List.range (numChOf data)).map
          (fun i => typeMap (data.getD (4 + i * 10 + 8) 0))
        signals := (List.range (numSamplesOf data)).map (fun m =>
          (List.range (numChOf data)).map (fun c =>
            decodeInt16
              (data.getD (headerSizeOf data + m * sampleSizeOf data + 2 * c) 0)
              (data.getD
                (headerSizeOf data + m * sampleSizeOf data + 2 * c + 1) 0)))
        impedance := (List.range (numSamplesOf data)).map (fun m =>
          (List.range (numChOf data)).map (fun c =>
            data.getD (headerSizeOf data + m * sampleSizeOf data +
              numChOf data * 2 + 12 + c) 0)) } := by
  simp only [numChOf, headerSizeOf, sampleSizeOf, numSamplesOf] at h3 h4 ⊢
  simp only [parse]
  rw [if_neg (not_lt.2 h1), if_neg (not_not_intro h2), if_neg (not_lt.2 h3),
    if_pos h4]
  by_cases hM : (data.length - (4 + data.getD 1 0 * 10)) /
      (data.getD 1 0 * 2 + 6 + 6 + data.getD 1 0) = 0
  · rw [if_pos hM, hM]
    simp
  · rw [if_neg hM]

/-- **C1.** For every byte sequence that is a valid version-4 frame
declaring `N` channels, the decoder succeeds and returns a signal matrix
and an impedance matrix both of shape `(M, N)` with
`M = floor(remaining_bytes / record_size)` and
`record_size = N*2 + 6 + 6 + N`; each signal entry is the little-endian
signed 16-bit value of the corresponding two record bytes (always in
`[-32768, 32768)`), each impedance entry is the corresponding single
unsigned record byte (always in `[0, 256)`); and appending any trailing
partial record (strictly fewer bytes than complete the next record)
changes nothing and causes no failure. -/
theorem C1_parse_v4_frame (data : List Nat)
    (h256 : ∀ b ∈ data, b < 256)
    (h1 : 4 ≤ data.length) (h2 : data.getD 0 0 = 4)
    (h3 : headerSizeOf data ≤ data.length)
    (h4 : ((List.range (numChOf data)).map (nameBytesAt data)).all validUtf8
      = true) :
    ∃ r, parse data = some r ∧
      r.signals.length = numSamplesOf data ∧
      r.impedance.length = numSamplesOf data ∧
      (∀ row ∈ r.signals, row.length = numChOf data) ∧
      (∀ row ∈ r.impedance, row.length = numChOf data) ∧
      (∀ m, m < numSamplesOf data → ∀ c, c < numChOf data →
        (r.signals.getD m []).getD c 0 =
          decodeInt16
            (data.getD (headerSizeOf data + m * sampleSizeOf data + 2 * c) 0)
            (data.getD
              (headerSizeOf data + m * sampleSizeOf data + 2 * c + 1) 0) ∧
        -32768 ≤ (r.signals.getD m []).getD c 0 ∧
        (r.signals.getD m []).getD c 0 < 32768 ∧
        (r.impedance.getD m []).getD c 0 =
          data.getD (headerSizeOf data + m * sampleSizeOf data +
            numChOf data * 2 + 12 + c) 0 ∧
        (r.impedance.getD m []).getD c 0 < 256) ∧
      (∀ extra : List Nat,
        extra.length + (data.length - headerSizeOf data) % sampleSizeOf data <
          sampleSizeOf data →
        parse (data ++ extra) = parse data) := by
  refine ⟨_, parse_wf_eq data h1 h2 h3 h4, ?_, ?_, ?_, ?_, ?_, ?_⟩
  · simp
  · simp
  · intro row hrow
    simp only [List.mem_map, List.mem_range] at hrow
    obtain ⟨m, _, rfl⟩ := hrow
    simp
  · intro row hrow
    simp only [List.mem_map, List.mem_range] at hrow
    obtain ⟨m, _, rfl⟩ := hrow
    simp
  · intro m hm c hc
    refine ⟨?_, ?_, ?_, ?_, ?_⟩
    · simp only [getD_map_range, hm, hc]
    · simp only [getD_map_range, hm, hc]
      exact (decodeInt16_bounds _ _ (getD_lt_256 data h256 _)
        (getD_lt_256 data h256 _)).1
    · simp only [getD_map_range, hm, hc]
      exact (decodeInt16_bounds _ _ (getD_lt_256 data h256 _)
        (getD_lt_256 data h256 _)).2
    · simp only [getD_map_range, hm, hc]
    · simp only [getD_map_range, hm, hc]
      exact getD_lt_256 data h256 _
  · intro extra hext
    have hN : numChOf (data ++ extra) = numChOf data := by
      simp only [numChOf]
      exact List.getD_append _ _ _ _ (by omega)
    have hss : sampleSizeOf (data ++ extra) = sampleSizeOf data := by
      simp only [sampleSizeOf, hN]
    have hhs : headerSizeOf (data ++ extra) = headerSizeOf data := by
      simp only [headerSizeOf, hN]
    have hsspos : 0 < sampleSizeOf data := by
      simp only [sampleSizeOf]; omega
    have hMle : numSamplesOf data * sampleSizeOf data ≤
        data.length - headerSizeOf data := Nat.div_mul_le_self _ _
    have hM : numSamplesOf (data ++ extra) = numSamplesOf data := by
      simp only [numSamplesOf, hss, hhs, List.length_append]
      have hrem := Nat.div_add_mod (data.length - headerSizeOf data)
        (sampleSizeOf data)
      have hsplit : data.length + extra.length - headerSizeOf data =
          sampleSizeOf data * numSamplesOf data +
            ((data.length - headerSizeOf data) % sampleSizeOf data +
              extra.length) := by
        simp only [numSamplesOf]
        omega
      rw [hsplit, Nat.mul_add_div hsspos,
        Nat.div_eq_of_lt (by omega), Nat.add_zero]
      simp only [numSamplesOf]
    have hgetD : ∀ i, i < data.length →
        (data ++ extra).getD i 0 = data.getD i 0 := fun i hi =>
      List.getD_append _ _ _ _ hi
    have hinHeader : ∀ i, i < numChOf data → 4 + i * 10 + 8 < data.length := by
      intro i hi
      have : 4 + i * 10 + 8 < 4 + numChOf data * 10 + 1 := by omega
      simp only [headerSizeOf] at h3
      omega
    have hnames : ∀ i ∈ List.range (numChOf data),
        nameBytesAt (data ++ extra) i = nameBytesAt data i := by
      intro i hi
      rw [List.mem_range] at hi
      have hle : 4 + i * 10 + 8 ≤ data.length := le_of_lt (hinHeader i hi)
      simp only [nameBytesAt]
      rw [List.drop_append_of_le_length (by omega),
        List.take_append_of_le_length (by simp; omega)]
    have hbody : ∀ m, m < numSamplesOf data → ∀ x, x < sampleSizeOf data →
        headerSizeOf data + m * sampleSizeOf data + x < data.length := by
      intro m hm x hx
      have h5 := rowByte_lt hm hx
      omega
    rw [parse_wf_eq data h1 h2 h3 h4,
      parse_wf_eq (data ++ extra)
        (by simp only [List.length_append]; omega)
        (by rw [List.getD_append _ _ _ _ (by omega)]; exact h2)
        (by rw [hhs, List.length_append]; omega)
        (by rw [hN, List.map_congr_left hnames]; exact h4)]
    congr 1
    refine RawFrame.mk.injEq _ _ _ _ _ _ _ _ ▸ ?_
    refine ⟨?_, ?_, ?_, ?_⟩
    · rw [hN]
      exact List.map_congr_left hnames
    · rw [hN]
      refine List.map_congr_left ?_
      intro i hi
      rw [List.mem_range] at hi
      rw [hgetD _ (hinHeader i hi)]
    · rw [hM, hN, hhs, hss]
      refine List.map_congr_left ?_
      intro m hm
      rw [List.mem_range] at hm
      refine List.map_congr_left ?_
      intro c hc
      rw [List.mem_range] at hc
      have h2c : 2 * c < sampleSizeOf data := by
        simp only [sampleSizeOf]; omega
      have h2c1 : 2 * c + 1 < sampleSizeOf data := by
        simp only [sampleSizeOf]; omega
      rw [hgetD _ (by have := hbody m hm _ h2c; omega),
        hgetD _ (by have := hbody m hm _ h2c1; omega)]
    · rw [hM, hN, hhs, hss]
      refine List.map_congr_left ?_
      intro m hm
      rw [List.mem_range] at hm
      refine List.map_congr_left ?_
      intro c hc
      rw [List.mem_range] at hc
      have hxl : numChOf data * 2 + 12 + c < sampleSizeOf data := by
        simp only [sampleSizeOf]; omega
      rw [hgetD _ (by have := hbody m hm _ hxl; omega)]

/-- **C1 witness.** A concrete one-channel frame carrying one complete
sample record and a two-byte trailing fragment: the decoder returns a
`1 × 1` signal matrix. -/
theorem C1_parse_v4_frame_witness :
    ∃ r, parse ([4, 1, 0, 0, 67, 49, 0, 0, 0, 0, 0, 0, 0, 0] ++
        ([1, 128] ++ [0, 0, 0, 0, 0, 0, 0, 0, 0, 0, 0, 0] ++ [200]) ++
        [7, 7]) = some r ∧
      r.signals.length = 1 := by
  obtain ⟨r, hp, hlen, -⟩ := C1_parse_v4_frame
    ([4, 1, 0, 0, 67, 49, 0, 0, 0, 0, 0, 0, 0, 0] ++
      ([1, 128] ++ [0, 0, 0, 0, 0, 0, 0, 0, 0, 0, 0, 0] ++ [200]) ++ [7, 7])
    (by decide) (by decide) (by decide) (by decide) (by decide)
  exact ⟨r, hp, by rw [hlen]; decide⟩

/-! ### Buffer retention (C4) -/

lemma drop_suffix_append {α : Type} (A B : List α) (mn : ℕ) :
    (A.drop (A.length - mn) ++ B).drop
        ((A.drop (A.length - mn) ++ B).length - mn) =
      (A ++ B).drop ((A ++ B).length - mn) := by
  by_cases h : A.length ≤ mn
  · have h0 : A.length - mn = 0 := by omega
    rw [h0, List.drop_zero]
  · push_neg at h
    have hlen : (A.drop (A.length - mn)).length = mn := by
      rw [List.length_drop]
      omega
    have e1 : (A.drop (A.length - mn) ++ B).length - mn = B.length := by
      rw [List.length_append, hlen]
      omega
    have e2 : (A ++ B).length - mn = (A.length - mn) + B.length := by
      rw [List.length_append]
      omega
    rw [e1, e2, List.drop_append_eq_append_drop, List.drop_append_eq_append_drop,
      List.drop_drop, hlen]
    congr 2
    all_goals omega

lemma appendTrim_suffix {N : ℕ} (hN : 1 ≤ N) {m : ℤ} (hm : 1 ≤ m)
    (buf s : Arr2 ℤ) (A : List (List ℤ))
    (hc : buf.cols = N) (hsc : s.cols = N)
    (hbuf : buf.data = A.drop (A.length - m.toNat)) :
    (appendTrim buf s m).cols = N ∧
    (appendTrim buf s m).data =
      (A ++ s.data).drop ((A ++ s.data).length - m.toNat) := by
  unfold appendTrim
  by_cases hempty : buf.size = 0
  · rw [if_pos hempty]
    have hbd : buf.data = [] := by
      simp only [Arr2.size] at hempty
      rcases Nat.mul_eq_zero.1 hempty with h | h
      · exact List.length_eq_zero.1 h
      · rw [hc] at h
        omega
    rw [hbuf] at hbd
    have hAnil : A = [] := by
      have hlen := congrArg List.length hbd
      rw [List.length_drop, List.length_nil] at hlen
      have h1m : 1 ≤ m.toNat := by omega
      have hA0 : A.length = 0 := by omega
      exact List.length_eq_zero.1 hA0
    rw [hAnil, List.nil_append]
    simp only []
    constructor
    · split
      · simp only [pySliceLast]
        rw [if_pos (by omega : (0 : ℤ) < m)]
        exact hsc
      · exact hsc
    · split
      · next hlt =>
        simp only [pySliceLast]
        rw [if_pos (by omega : (0 : ℤ) < m)]
      · next hlt =>
        have h0 : s.data.length - m.toNat = 0 := by omega
        rw [h0, List.drop_zero]
  · rw [if_neg hempty]
    simp only []
    have hvd : (vstack buf s).data = A.drop (A.length - m.toNat) ++ s.data := by
      simp only [vstack]
      rw [hbuf]
    have hvc : (vstack buf s).cols = N := hc
    constructor
    · split
      · simp only [pySliceLast]
        rw [if_pos (by omega : (0 : ℤ) < m)]
        exact hvc
      · exact hvc
    · split
      · next hlt =>
        simp only [pySliceLast]
        rw [if_pos (by omega : (0 : ℤ) < m)]
        rw [hvd]
        exact drop_suffix_append A s.data m.toNat
      · next hlt =>
        rw [hvd] at hlt ⊢
        have h0 : (A.drop (A.length - m.toNat) ++ s.data).length - m.toNat = 0 := by
          rw [List.length_append] at hlt ⊢
          omega
        have := drop_suffix_append A s.data m.toNat
        rw [h0, List.drop_zero] at this
        exact this

lemma foldl_appendTrim {N : ℕ} (hN : 1 ≤ N) {m : ℤ} (hm : 1 ≤ m) :
    ∀ (batches : List (Arr2 ℤ)) (buf : Arr2 ℤ) (A : List (List ℤ)),
      buf.cols = N → (∀ s ∈ batches, s.cols = N) →
      buf.data = A.drop (A.length - m.toNat) →
      (batches.foldl (fun b s => appendTrim b s m) buf).cols = N ∧
      (batches.foldl (fun b s => appendTrim b s m) buf).data =
        (A ++ (batches.map Arr2.data).flatten).drop
          ((A ++ (batches.map Arr2.data).flatten).length - m.toNat)
  | [], buf, A, hc, _, hbuf => by
      simpa using ⟨hc, hbuf⟩
  | s :: rest, buf, A, hc, hall, hbuf => by
      have hstep := appendTrim_suffix hN hm buf s A hc
        (hall s (List.mem_cons_self s rest)) hbuf
      have ih := foldl_appendTrim hN hm rest (appendTrim buf s m) (A ++ s.data)
        hstep.1 (fun x hx => hall x (List.mem_cons_of_mem s hx)) hstep.2
      simp only [List.foldl_cons, List.map_cons, List.flatten_cons]
      rw [← List.append_assoc]
      exact ih

unseal Rat.add Rat.mul Rat.inv in
/-- **C4 counterexample.** The claim fails as stated: with sampling rate
`1/100` the bound `int(sampling_rate * 60)` is `0`, but Python's
`buffer[-0:]` is the whole buffer, so after one ingestion append of a
single row the buffer holds 1 row — more than the claimed bound of 0. -/
theorem C4_buffer_retention_counterexample :
    ((upsertUserState (R := ℕ) Config.default [] (fun _ => none)
        (fun _ _ => none) "u" (1 / 100) 1 [[67]] ["eeg"]
        ⟨1, [[5]]⟩ ⟨1, [[10]]⟩).userStates "u").map
      (fun st => st.buffer.data.length) = some 1 ∧
    ((upsertUserState (R := ℕ) Config.default [] (fun _ => none)
        (fun _ _ => none) "u" (1 / 100) 1 [[67]] ["eeg"]
        ⟨1, [[5]]⟩ ⟨1, [[10]]⟩).userStates "u").map
      (fun st => (truncToInt (st.profile.sampling_rate * 60)).toNat) =
      some 0 := by
  constructor
  · decide
  · decide

/-- **C4 (amended).** Provided the retention bound
`int(sampling_rate * 60)` is at least 1 and the frames carry at least one
channel — the counterexample shows both are needed, since a zero bound
makes `buffer[-0:]` keep everything and a zero channel count makes
`buffer.size == 0` replace instead of append — the buffer-maintenance step
of `_upsert_user_state`, iterated from the empty post-reset buffer over
any sequence of appended signal batches, leaves the buffer holding exactly
the most recent `min(total, bound)` rows of the concatenated appends, in
original order with columns unchanged, hence never more than the bound. -/
theorem C4_buffer_retention (sr : ℚ) (N : ℕ) (hN : 1 ≤ N)
    (hm : 1 ≤ truncToInt (sr * 60)) (batches : List (Arr2 ℤ))
    (hcols : ∀ s ∈ batches, s.cols = N) :
    (batches.foldl (fun b s => appendTrim b s (truncToInt (sr * 60)))
        ⟨N, []⟩).data =
      ((batches.map Arr2.data).flatten).drop
        (((batches.map Arr2.data).flatten).length -
          (truncToInt (sr * 60)).toNat) ∧
    (batches.foldl (fun b s => appendTrim b s (truncToInt (sr * 60)))
        ⟨N, []⟩).data.length ≤ (truncToInt (sr * 60)).toNat ∧
    (batches.foldl (fun b s => appendTrim b s (truncToInt (sr * 60)))
        ⟨N, []⟩).cols = N := by
  have h := foldl_appendTrim hN hm batches ⟨N, []⟩ [] rfl hcols (by simp)
  simp only [List.nil_append] at h
  refine ⟨h.2, ?_, h.1⟩
  rw [h.2, List.length_drop]
  omega

unseal Rat.add Rat.mul Rat.inv in
/-- **C4 witness.** Two one-row appends at sampling rate 1 (bound 60): the
buffer is exactly both rows in order. -/
theorem C4_buffer_retention_witness :
    (([⟨1, [[1]]⟩, ⟨1, [[2]]⟩] : List (Arr2 ℤ)).foldl
        (fun b s => appendTrim b s (truncToInt ((1 : ℚ) * 60)))
        ⟨1, []⟩).data = [[1], [2]] :=
  (C4_buffer_retention 1 1 (by decide) (by decide)
    [⟨1, [[1]]⟩, ⟨1, [[2]]⟩] (by decide)).1.trans (by decide)

/-- **C5.** `_upsert_user_state` resets exactly when the device has no
state or the inbound frame's channel names, channel types, or sampling
rate (beyond tolerance `1e-6`) differ from the profile.  On reset it
installs a brand-new profile carrying the frame's lists/rate, a fresh
tracker seeded via `Tracker.init` (so the accumulated statistics and the
bad-channel/report caches start empty) that then sees only this frame, a
buffer rebuilt from the empty `(0, N)` array, removes the device's cached
analysis results, and fires `on_profile_initialized` for every registered
application.  A matching frame triggers none of these: no hooks, results
untouched, and tracker/buffer continue from the existing state. -/
theorem C5_profile_reset_lifecycle {R : Type} (cfg : Config)
    (apps : List String) (userStates : String → Option UserStateM)
    (results : String → String → Option R) (uid : String) (sr lsb : ℚ)
    (chN : List (List Nat)) (chT : List String)
    (signals : Arr2 ℤ) (imped : Arr2 ℕ) (hlsb : lsb ≠ 0) :
    (needsResetB (userStates uid) chN chT sr = true ↔
      userStates uid = none ∨ ∃ st, userStates uid = some st ∧
        (st.profile.ch_names ≠ chN ∨ st.profile.ch_types ≠ chT ∨
          (1 : ℚ) / 1000000 < |st.profile.sampling_rate - sr|)) ∧
    (needsResetB (userStates uid) chN chT sr = true →
      (upsertUserState cfg apps userStates results uid sr lsb chN chT
          signals imped).hooks = apps ∧
      (∀ a, (upsertUserState cfg apps userStates results uid sr lsb chN chT
          signals imped).results uid a = none) ∧
      (∀ u a, u ≠ uid →
        (upsertUserState cfg apps userStates results uid sr lsb chN chT
          signals imped).results u a = results u a) ∧
      ∃ st', (upsertUserState cfg apps userStates results uid sr lsb chN chT
          signals imped).userStates uid = some st' ∧
        st'.profile.ch_names = chN ∧ st'.profile.ch_types = chT ∧
        st'.profile.sampling_rate = sr ∧ st'.profile.lsb_to_volts = lsb ∧
        st'.tracker =
          (((Tracker.init chN chT).update cfg signals imped).buildReport cfg).1 ∧
        st'.profile.bad_channels = some
          (((Tracker.init chN chT).update cfg signals imped).buildReport
            cfg).2.1 ∧
        st'.buffer =
          appendTrim ⟨chN.length, []⟩ signals (truncToInt (sr * 60))) ∧
    (needsResetB (userStates uid) chN chT sr = false →
      (upsertUserState cfg apps userStates results uid sr lsb chN chT
          signals imped).hooks = [] ∧
      (∀ u a, (upsertUserState cfg apps userStates results uid sr lsb chN chT
          signals imped).results u a = results u a) ∧
      ∀ st, userStates uid = some st →
        ((upsertUserState cfg apps userStates results uid sr lsb chN chT
            signals imped).userStates uid).map UserStateM.tracker =
          some ((st.tracker.update cfg signals imped).buildReport cfg).1 ∧
        ((upsertUserState cfg apps userStates results uid sr lsb chN chT
            signals imped).userStates uid).map UserStateM.buffer =
          some (appendTrim st.buffer signals
            (truncToInt (st.profile.sampling_rate * 60)))) := by
  refine ⟨?_, ?_, ?_⟩
  · cases h : userStates uid with
    | none => simp [needsResetB, h]
    | some st =>
      constructor
      · intro hb
        refine Or.inr ⟨st, rfl, ?_⟩
        by_contra hcon
        push_neg at hcon
        obtain ⟨h1, h2, h3⟩ := hcon
        have h3' : ¬ ((1 : ℚ) / 1000000 < |st.profile.sampling_rate - sr|) :=
          not_lt.2 h3
        simp [needsResetB, h1, h2] at hb
        rw [one_div] at h3'
        exact h3' hb
      · intro hor
        rcases hor with hnone | ⟨st', hst', hd⟩
        · exact Option.noConfusion hnone
        · injection hst' with he
          subst he
          rcases hd with h1 | h1 | h1
          · simp [needsResetB, h1]
          · simp [needsResetB, h1]
          · have h1' : (1000000 : ℚ)⁻¹ < |st.profile.sampling_rate - sr| := by
              rwa [one_div] at h1
            simp [needsResetB, h1']
  · intro hr
    refine ⟨?_, ?_, ?_, ?_⟩
    · simp only [upsertUserState, if_neg hlsb, hr, if_true]
    · intro a
      simp only [upsertUserState, if_neg hlsb, hr, if_true,
        eq_self_iff_true]
    · intro u a hu
      simp only [upsertUserState, if_neg hlsb, hr, if_true]
      simp [hu]
    · simp only [upsertUserState, if_neg hlsb, hr, if_true,
        eq_self_iff_true]
      exact ⟨_, rfl, rfl, rfl, rfl, rfl, rfl, rfl, rfl⟩
  · intro hr
    refine ⟨?_, ?_, ?_⟩
    · simp only [upsertUserState, if_neg hlsb, hr, Bool.false_eq_true,
        if_false]
    · intro u a
      simp only [upsertUserState, if_neg hlsb, hr, Bool.false_eq_true,
        if_false]
    · intro st hst
      rw [hst] at hr
      simp only [upsertUserState, if_neg hlsb, hst, hr, Bool.false_eq_true,
        if_false, Option.getD_some, eq_self_iff_true, if_true,
        Option.map_some']
      exact ⟨trivial, trivial⟩

/-- **C5 witness.** A device with no existing state: the reset branch
fires the lifecycle hook of the one registered application. -/
theorem C5_profile_reset_lifecycle_witness :
    (upsertUserState (R := ℕ) Config.default ["a1"] (fun _ => none)
      (fun _ _ => none) "u" 256 1 [[67]] ["eeg"]
      ⟨1, [[5]]⟩ ⟨1, [[10]]⟩).hooks = ["a1"] :=
  ((C5_profile_reset_lifecycle Config.default ["a1"] (fun _ => none)
    (fun _ _ => none) "u" 256 1 [[67]] ["eeg"] ⟨1, [[5]]⟩ ⟨1, [[10]]⟩
    (by decide)).2.1 (by decide)).1

/-! ### Worker-cycle lemmas (C6, C7) -/

section CycleLemmas

variable {R : Type}

lemma appStep_results_other (uid : String) (st : UserStateM) (window : Arr2 ℤ)
    (acc : CycleOut R) (app : AppM R) (u a : String)
    (h : ¬(u = uid ∧ a = app.id)) :
    (appStep uid st window acc app).results u a = acc.results u a := by
  simp only [appStep]
  cases app.analyze uid st window with
  | raised => rfl
  | ok r =>
    cases r with
    | none => rfl
    | some v => simp [h]

lemma appStep_calls (uid : String) (st : UserStateM) (window : Arr2 ℤ)
    (acc : CycleOut R) (app : AppM R) :
    (appStep uid st window acc app).calls =
      acc.calls ++ [(uid, app.id, window)] := by
  simp only [appStep]
  cases app.analyze uid st window with
  | raised => rfl
  | ok r => cases r with
    | none => rfl
    | some v => rfl

lemma foldl_appStep_results_notin (uid : String) (st : UserStateM)
    (window : Arr2 ℤ) :
    ∀ (apps : List (AppM R)) (acc : CycleOut R) (u a : String),
      (u ≠ uid ∨ a ∉ apps.map AppM.id) →
      (apps.foldl (appStep uid st window) acc).results u a = acc.results u a
  | [], acc, u, a, _ => rfl
  | app :: rest, acc, u, a, h => by
    rw [List.foldl_cons]
    have hrest : u ≠ uid ∨ a ∉ rest.map AppM.id := by
      rcases h with h | h
      · exact Or.inl h
      · exact Or.inr (fun hmem => h (by simp [List.mem_map] at hmem ⊢; tauto))
    rw [foldl_appStep_results_notin uid st window rest _ u a hrest]
    refine appStep_results_other uid st window acc app u a ?_
    rintro ⟨rfl, rfl⟩
    rcases h with h | h
    · exact h rfl
    · exact h (by simp)

lemma foldl_appStep_calls (uid : String) (st : UserStateM) (window : Arr2 ℤ) :
    ∀ (apps : List (AppM R)) (acc : CycleOut R),
      (apps.foldl (appStep uid st window) acc).calls =
        acc.calls ++ apps.map (fun app => (uid, app.id, window))
  | [], acc => by simp
  | app :: rest, acc => by
    rw [List.foldl_cons, foldl_appStep_calls uid st window rest _,
      appStep_calls, List.map_cons, List.append_assoc, List.singleton_append]

lemma foldl_appStep_results_self (uid : String) (st : UserStateM)
    (window : Arr2 ℤ) :
    ∀ (apps : List (AppM R)) (acc : CycleOut R) (app : AppM R),
      (apps.map AppM.id).Nodup → app ∈ apps →
      (apps.foldl (appStep uid st window) acc).results uid app.id =
        (match app.analyze uid st window with
         | Outcome.ok (some v) => some v
         | _ => acc.results uid app.id)
  | [], _, app, _, hmem => absurd hmem (List.not_mem_nil app)
  | hd :: tl, acc, app, hnd, hmem => by
    rw [List.map_cons, List.nodup_cons] at hnd
    rw [List.foldl_cons]
    rcases List.mem_cons.1 hmem with rfl | hmem'
    · rw [foldl_appStep_results_notin uid st window tl _ uid app.id
        (Or.inr hnd.1)]
      simp only [appStep]
      cases happ : app.analyze uid st window with
      | raised => rfl
      | ok r =>
        cases r with
        | none => rfl
        | some v => simp
    · have hne : app.id ≠ hd.id := by
        intro he
        exact hnd.1 (he ▸ List.mem_map_of_mem AppM.id hmem')
      rw [foldl_appStep_results_self uid st window tl _ app hnd.2 hmem']
      have hbase : (appStep uid st window acc hd).results uid app.id =
          acc.results uid app.id :=
        appStep_results_other uid st window acc hd uid app.id
          (fun hc => hne hc.2)
      cases app.analyze uid st window with
      | raised => exact hbase
      | ok r =>
        cases r with
        | none => exact hbase
        | some v => rfl

lemma processDevice_skip (cfg : Config) (apps : List (AppM R))
    (acc : CycleOut R) (uid : String) (st : UserStateM)
    (h : truncToInt (st.profile.sampling_rate * cfg.analysis_window_seconds)
        = 0 ∨
      (st.buffer.data.length : ℤ) <
        truncToInt (st.profile.sampling_rate * cfg.analysis_window_seconds)) :
    processDevice cfg apps acc uid st = acc := by
  simp only [processDevice]
  rw [if_pos h]

lemma processDevice_proc (cfg : Config) (apps : List (AppM R))
    (acc : CycleOut R) (uid : String) (st : UserStateM)
    (h : ¬(truncToInt (st.profile.sampling_rate * cfg.analysis_window_seconds)
        = 0 ∨
      (st.buffer.data.length : ℤ) <
        truncToInt (st.profile.sampling_rate * cfg.analysis_window_seconds))) :
    processDevice cfg apps acc uid st =
      apps.foldl
        (appStep uid st (pySliceLast st.buffer
          (truncToInt (st.profile.sampling_rate *
            cfg.analysis_window_seconds)))) acc := by
  simp only [processDevice]
  rw [if_neg h]

lemma processDevice_results_other (cfg : Config) (apps : List (AppM R))
    (acc : CycleOut R) (uid : String) (st : UserStateM) (u a : String)
    (hu : u ≠ uid) :
    (processDevice cfg apps acc uid st).results u a = acc.results u a := by
  simp only [processDevice]
  split
  · rfl
  · exact foldl_appStep_results_notin uid st _ apps acc u a (Or.inl hu)

lemma processDevice_calls_filter (cfg : Config) (apps : List (AppM R))
    (acc : CycleOut R) (uid : String) (st : UserStateM) (u : String)
    (hu : u ≠ uid) :
    ((processDevice cfg apps acc uid st).calls.filter
        (fun e => e.1 = u)) =
      acc.calls.filter (fun e => e.1 = u) := by
  simp only [processDevice]
  split
  · rfl
  · rw [foldl_appStep_calls, List.filter_append]
    have h0 : ((apps.map (fun app => (uid, app.id,
        pySliceLast st.buffer (truncToInt (st.profile.sampling_rate *
          cfg.analysis_window_seconds))))).filter
        (fun e => e.1 = u)) = [] := by
      refine List.filter_eq_nil_iff.mpr ?_
      intro e he
      rw [List.mem_map] at he
      obtain ⟨app, -, rfl⟩ := he
      simp only [decide_eq_true_eq]
      exact fun h => hu h.symm
    rw [h0, List.append_nil]

lemma cycle_results_other (cfg : Config) (apps : List (AppM R)) :
    ∀ (snapshot : List (String × UserStateM)) (acc : CycleOut R)
      (u a : String), u ∉ snapshot.map Prod.fst →
      ((snapshot.foldl (fun acc p => processDevice cfg apps acc p.1 p.2)
        acc).results u a) = acc.results u a
  | [], acc, u, a, _ => rfl
  | p :: tl, acc, u, a, h => by
    rw [List.map_cons, List.mem_cons, not_or] at h
    rw [List.foldl_cons,
      cycle_results_other cfg apps tl _ u a h.2,
      processDevice_results_other cfg apps acc p.1 p.2 u a h.1]

lemma cycle_calls_other (cfg : Config) (apps : List (AppM R)) :
    ∀ (snapshot : List (String × UserStateM)) (acc : CycleOut R)
      (u : String), u ∉ snapshot.map Prod.fst →
      ((snapshot.foldl (fun acc p => processDevice cfg apps acc p.1 p.2)
          acc).calls.filter (fun e => e.1 = u)) =
        acc.calls.filter (fun e => e.1 = u)
  | [], acc, u, _ => rfl
  | p :: tl, acc, u, h => by
    rw [List.map_cons, List.mem_cons, not_or] at h
    rw [List.foldl_cons,
      cycle_calls_other cfg apps tl _ u h.2,
      processDevice_calls_filter cfg apps acc p.1 p.2 u h.1]

lemma foldl_appStep_results_congr (uid : String) (st : UserStateM)
    (window : Arr2 ℤ) :
    ∀ (apps : List (AppM R)) (acc1 acc2 : CycleOut R) (a : String),
      acc1.results uid a = acc2.results uid a →
      (apps.foldl (appStep uid st window) acc1).results uid a =
        (apps.foldl (appStep uid st window) acc2).results uid a
  | [], _, _, _, h => h
  | hd :: tl, acc1, acc2, a, h => by
    rw [List.foldl_cons, List.foldl_cons]
    refine foldl_appStep_results_congr uid st window tl _ _ a ?_
    simp only [appStep]
    cases hd.analyze uid st window with
    | raised => exact h
    | ok r =>
      cases r with
      | none => exact h
      | some v =>
        by_cases hc : a = hd.id
        · simp [hc]
        · simp [hc, h]

lemma cycle_results_key (cfg : Config) (apps : List (AppM R))
    (uid : String) (st : UserStateM) :
    ∀ (snapshot : List (String × UserStateM)) (acc : CycleOut R) (a : String),
      (snapshot.map Prod.fst).Nodup → (uid, st) ∈ snapshot →
      ((snapshot.foldl (fun acc p => processDevice cfg apps acc p.1 p.2)
        acc).results uid a) =
        (processDevice cfg apps acc uid st).results uid a
  | [], _, a, _, hmem => absurd hmem (List.not_mem_nil _)
  | p :: tl, acc, a, hnd, hmem => by
    rw [List.map_cons, List.nodup_cons] at hnd
    rw [List.foldl_cons]
    rcases List.mem_cons.1 hmem with rfl | hmem'
    · exact cycle_results_other cfg apps tl _ uid a hnd.1
    · have hne : uid ≠ p.1 := by
        intro he
        exact hnd.1 (he ▸ List.mem_map_of_mem Prod.fst hmem')
      rw [cycle_results_key cfg apps uid st tl _ a hnd.2 hmem']
      by_cases hskip :
          truncToInt (st.profile.sampling_rate * cfg.analysis_window_seconds)
            = 0 ∨
          (st.buffer.data.length : ℤ) <
            truncToInt (st.profile.sampling_rate * cfg.analysis_window_seconds)
      · rw [processDevice_skip cfg apps _ uid st hskip,
          processDevice_skip cfg apps acc uid st hskip,
          processDevice_results_other cfg apps acc p.1 p.2 uid a hne]
      · rw [processDevice_proc cfg apps _ uid st hskip,
          processDevice_proc cfg apps acc uid st hskip]
        exact foldl_appStep_results_congr uid st _ apps _ acc a
          (processDevice_results_other cfg apps acc p.1 p.2 uid a hne)

lemma processDevice_calls_congr (cfg : Config) (apps : List (AppM R))
    (acc1 acc2 : CycleOut R) (uid : String) (st : UserStateM)
    (h : acc1.calls.filter (fun e => e.1 = uid) =
      acc2.calls.filter (fun e => e.1 = uid)) :
    (processDevice cfg apps acc1 uid st).calls.filter (fun e => e.1 = uid) =
      (processDevice cfg apps acc2 uid st).calls.filter
        (fun e => e.1 = uid) := by
  simp only [processDevice]
  split
  · exact h
  · rw [foldl_appStep_calls, foldl_appStep_calls, List.filter_append,
      List.filter_append, h]

lemma cycle_calls_key (cfg : Config) (apps : List (AppM R))
    (uid : String) (st : UserStateM) :
    ∀ (snapshot : List (String × UserStateM)) (acc : CycleOut R),
      (snapshot.map Prod.fst).Nodup → (uid, st) ∈ snapshot →
      ((snapshot.foldl (fun acc p => processDevice cfg apps acc p.1 p.2)
          acc).calls.filter (fun e => e.1 = uid)) =
        (processDevice cfg apps acc uid st).calls.filter (fun e => e.1 = uid)
  | [], _, _, hmem => absurd hmem (List.not_mem_nil _)
  | p :: tl, acc, hnd, hmem => by
    rw [List.map_cons, List.nodup_cons] at hnd
    rw [List.foldl_cons]
    rcases List.mem_cons.1 hmem with rfl | hmem'
    · exact cycle_calls_other cfg apps tl _ uid hnd.1
    · have hne : uid ≠ p.1 := by
        intro he
        exact hnd.1 (he ▸ List.mem_map_of_mem Prod.fst hmem')
      rw [cycle_calls_key cfg apps uid st tl _ hnd.2 hmem']
      exact processDevice_calls_congr cfg apps _ acc uid st
        (processDevice_calls_filter cfg apps acc p.1 p.2 uid hne)

lemma cycle_calls_proc (cfg : Config) (apps : List (AppM R))
    (snapshot : List (String × UserStateM))
    (results : String → String → Option R) (uid : String) (st : UserStateM)
    (hnd : (snapshot.map Prod.fst).Nodup) (hmem : (uid, st) ∈ snapshot)
    (hnskip :
      ¬(truncToInt (st.profile.sampling_rate * cfg.analysis_window_seconds)
          = 0 ∨
        (st.buffer.data.length : ℤ) <
          truncToInt (st.profile.sampling_rate *
            cfg.analysis_window_seconds))) :
    ((analysisCycle cfg apps snapshot results).calls.filter
        (fun e => e.1 = uid)) =
      apps.map (fun app => (uid, app.id,
        pySliceLast st.buffer (truncToInt (st.profile.sampling_rate *
          cfg.analysis_window_seconds)))) := by
  rw [analysisCycle, cycle_calls_key cfg apps uid st snapshot _ hnd hmem,
    processDevice_proc cfg apps _ uid st hnskip, foldl_appStep_calls]
  simp only [List.nil_append]
  refine List.filter_eq_self.mpr ?_
  intro e he
  rw [List.mem_map] at he
  obtain ⟨app, -, rfl⟩ := he
  simp

end CycleLemmas

/-- **C6 (amended).** On a scheduler cycle, a device whose snapshot buffer
holds fewer rows than
`window_samples = int(sampling_rate * analysis_window_seconds)` — or whose
`window_samples` is zero, the case the original claim missed: the worker
also skips then, invoking nothing — is skipped: no application's `analyze`
is invoked for it and its entries in the results table are left exactly as
they were.  For `window_samples ≥ 1` and a buffer with at least that many
rows, every registered application is invoked once, in registration order,
with exactly the most recent `window_samples` rows of the buffer. -/
theorem C6_worker_skip_and_window {R : Type} (cfg : Config)
    (apps : List (AppM R)) (snapshot : List (String × UserStateM))
    (results : String → String → Option R) (uid : String) (st : UserStateM)
    (hnd : (snapshot.map Prod.fst).Nodup) (hmem : (uid, st) ∈ snapshot) :
    ((truncToInt (st.profile.sampling_rate * cfg.analysis_window_seconds)
        = 0 ∨
      (st.buffer.data.length : ℤ) <
        truncToInt (st.profile.sampling_rate *
          cfg.analysis_window_seconds)) →
      (∀ a, (analysisCycle cfg apps snapshot results).results uid a =
        results uid a) ∧
      ((analysisCycle cfg apps snapshot results).calls.filter
        (fun e => e.1 = uid)) = []) ∧
    (1 ≤ truncToInt (st.profile.sampling_rate *
        cfg.analysis_window_seconds) →
      truncToInt (st.profile.sampling_rate * cfg.analysis_window_seconds) ≤
        (st.buffer.data.length : ℤ) →
      ((analysisCycle cfg apps snapshot results).calls.filter
          (fun e => e.1 = uid)) =
        apps.map (fun app => (uid, app.id,
          pySliceLast st.buffer (truncToInt (st.profile.sampling_rate *
            cfg.analysis_window_seconds)))) ∧
      pySliceLast st.buffer (truncToInt (st.profile.sampling_rate *
          cfg.analysis_window_seconds)) =
        ⟨st.buffer.cols, st.buffer.data.drop (st.buffer.data.length -
          (truncToInt (st.profile.sampling_rate *
            cfg.analysis_window_seconds)).toNat)⟩) := by
  constructor
  · intro hskip
    constructor
    · intro a
      rw [analysisCycle, cycle_results_key cfg apps uid st snapshot _ a
        hnd hmem, processDevice_skip cfg apps _ uid st hskip]
    · rw [analysisCycle, cycle_calls_key cfg apps uid st snapshot _ hnd hmem,
        processDevice_skip cfg apps _ uid st hskip]
      rfl
  · intro h1 h2
    have hnskip :
        ¬(truncToInt (st.profile.sampling_rate * cfg.analysis_window_seconds)
            = 0 ∨
          (st.buffer.data.length : ℤ) <
            truncToInt (st.profile.sampling_rate *
              cfg.analysis_window_seconds)) := by
      push_neg
      omega
    refine ⟨cycle_calls_proc cfg apps snapshot results uid st hnd hmem
      hnskip, ?_⟩
    simp only [pySliceLast]
    rw [if_pos (by omega : (0 : ℤ) < truncToInt (st.profile.sampling_rate *
      cfg.analysis_window_seconds))]

unseal Rat.add Rat.mul Rat.inv in
/-- **C6 counterexample.** The original claim fails at
`window_samples = 0`: a device with sampling rate `1/5` under the default
2-second window gives `int(2/5) = 0`; its buffer holds 3 rows, which is
"at least `window_samples`", yet the worker skips the device entirely —
the registered application is never invoked (no call is recorded and
nothing is stored), where the claim promises each application a slice. -/
theorem C6_worker_skip_counterexample :
    truncToInt ((1 / 5 : ℚ) * Config.default.analysis_window_seconds)
        = 0 ∧
    (analysisCycle (R := ℕ) Config.default
        [⟨"a1", fun _ _ _ => Outcome.ok (some 7)⟩]
        [("u", ⟨⟨[[67]], ["eeg"], 1 / 5, 1, none, none⟩, ⟨1, [[1], [2], [3]]⟩,
          Tracker.init [[67]] ["eeg"]⟩)]
        (fun _ _ => none)).calls = [] ∧
    (analysisCycle (R := ℕ) Config.default
        [⟨"a1", fun _ _ _ => Outcome.ok (some 7)⟩]
        [("u", ⟨⟨[[67]], ["eeg"], 1 / 5, 1, none, none⟩, ⟨1, [[1], [2], [3]]⟩,
          Tracker.init [[67]] ["eeg"]⟩)]
        (fun _ _ => none)).results "u" "a1" = none := by
  refine ⟨by decide, by decide, by decide⟩

unseal Rat.add Rat.mul Rat.inv in
/-- **C6 witness.** Sampling rate 1 with the default 2-second window
(`window_samples = 2`) and a 3-row buffer: the single registered
application is invoked with exactly the 2 most recent rows. -/
theorem C6_worker_skip_and_window_witness :
    ((analysisCycle (R := ℕ) Config.default
        [⟨"a1", fun _ _ _ => Outcome.ok (some 7)⟩]
        [("u", ⟨⟨[[67]], ["eeg"], 1, 1, none, none⟩, ⟨1, [[1], [2], [3]]⟩,
          Tracker.init [[67]] ["eeg"]⟩)]
        (fun _ _ => none)).calls.filter (fun e => e.1 = "u")) =
      [("u", "a1", ⟨1, [[2], [3]]⟩)] :=
  ((C6_worker_skip_and_window Config.default
      [⟨"a1", fun _ _ _ => Outcome.ok (some 7)⟩]
      [("u", ⟨⟨[[67]], ["eeg"], 1, 1, none, none⟩, ⟨1, [[1], [2], [3]]⟩,
        Tracker.init [[67]] ["eeg"]⟩)]
      (fun _ _ => none) "u"
      ⟨⟨[[67]], ["eeg"], 1, 1, none, none⟩, ⟨1, [[1], [2], [3]]⟩,
        Tracker.init [[67]] ["eeg"]⟩
      (by decide) (by decide)).2 (by decide) (by decide)).1.trans (by decide)

/-- **C7.** For a device the cycle processes, each registered
application's stored entry under (device id, app id) is exactly replaced
by its `analyze` result when that is non-`None`, and is left as the prior
entry when `analyze` returns `None` or raises; moreover every registered
application is still invoked on the device's window (in particular a
raised exception aborts neither the remaining applications nor other
devices, whose entries are governed by the same formula). -/
theorem C7_worker_result_storage {R : Type} (cfg : Config)
    (apps : List (AppM R)) (snapshot : List (String × UserStateM))
    (results : String → String → Option R) (uid : String) (st : UserStateM)
    (app : AppM R)
    (hnd : (snapshot.map Prod.fst).Nodup) (hmem : (uid, st) ∈ snapshot)
    (hndapp : (apps.map AppM.id).Nodup) (happ : app ∈ apps)
    (h1 : 1 ≤ truncToInt (st.profile.sampling_rate *
      cfg.analysis_window_seconds))
    (h2 : truncToInt (st.profile.sampling_rate *
      cfg.analysis_window_seconds) ≤ (st.buffer.data.length : ℤ)) :
    (analysisCycle cfg apps snapshot results).results uid app.id =
      (match app.analyze uid st (pySliceLast st.buffer
          (truncToInt (st.profile.sampling_rate *
            cfg.analysis_window_seconds))) with
       | Outcome.ok (some v) => some v
       | _ => results uid app.id) ∧
    ∀ app2 ∈ apps, (uid, app2.id, pySliceLast st.buffer
        (truncToInt (st.profile.sampling_rate *
          cfg.analysis_window_seconds))) ∈
      (analysisCycle cfg apps snapshot results).calls := by
  have hnskip :
      ¬(truncToInt (st.profile.sampling_rate * cfg.analysis_window_seconds)
          = 0 ∨
        (st.buffer.data.length : ℤ) <
          truncToInt (st.profile.sampling_rate *
            cfg.analysis_window_seconds)) := by
    push_neg
    omega
  constructor
  · rw [analysisCycle, cycle_results_key cfg apps uid st snapshot _ app.id
      hnd hmem, processDevice_proc cfg apps _ uid st hnskip,
      foldl_appStep_results_self uid st _ apps _ app hndapp happ]
  · intro app2 happ2
    have hfil := cycle_calls_proc cfg apps snapshot results uid st hnd hmem
      hnskip
    have hmem2 : (uid, app2.id, pySliceLast st.buffer
        (truncToInt (st.profile.sampling_rate *
          cfg.analysis_window_seconds))) ∈
        ((analysisCycle cfg apps snapshot results).calls.filter
          (fun e => e.1 = uid)) := by
      rw [hfil]
      exact List.mem_map_of_mem _ happ2
    exact List.mem_of_mem_filter hmem2

unseal Rat.add Rat.mul Rat.inv in
/-- **C7 witness.** Two applications: the first stores `7`, the second
raises; the second's entry stays absent while both are invoked. -/
theorem C7_worker_result_storage_witness :
    (analysisCycle (R := ℕ) Config.default
        [⟨"a1", fun _ _ _ => Outcome.ok (some 7)⟩,
         ⟨"a2", fun _ _ _ => Outcome.raised⟩]
        [("u", ⟨⟨[[67]], ["eeg"], 1, 1, none, none⟩, ⟨1, [[1], [2], [3]]⟩,
          Tracker.init [[67]] ["eeg"]⟩)]
        (fun _ _ => none)).results "u" "a2" = none :=
  (C7_worker_result_storage Config.default
      [⟨"a1", fun _ _ _ => Outcome.ok (some 7)⟩,
       ⟨"a2", fun _ _ _ => Outcome.raised⟩]
      [("u", ⟨⟨[[67]], ["eeg"], 1, 1, none, none⟩, ⟨1, [[1], [2], [3]]⟩,
        Tracker.init [[67]] ["eeg"]⟩)]
      (fun _ _ => none) "u"
      ⟨⟨[[67]], ["eeg"], 1, 1, none, none⟩, ⟨1, [[1], [2], [3]]⟩,
        Tracker.init [[67]] ["eeg"]⟩
      ⟨"a2", fun _ _ _ => Outcome.raised⟩
      (by decide) (by decide) (by decide)
      (List.mem_cons_of_mem _ (List.mem_cons_self _ _)) (by decide)
      (by decide)).1.trans rfl

unseal Rat.add Rat.mul Rat.inv in
/-- **C9 counterexample.** A message with valid device identity and
sampling rate, a decodable one-sample payload, and scale factor exactly
`0` (a float): the claim says the consumer treats it as valid data and
still updates the per-device state, but the consumer excludes it — the
callback acks and returns before `_upsert_user_state` (and
`_upsert_user_state` itself also skips on zero), storing nothing.  The
payload itself decodes to one sample, so nothing else explains the
rejection. -/
theorem C9_zero_scale_counterexample :
    (consumeMessage (R := ℕ) Config.default ["a1"] (fun _ => none)
        (fun _ _ => none)
        ⟨PyVal.vStr "u", PyVal.vFloat 256, PyVal.vFloat 0, PyVal.vNone⟩
        ([4, 1, 0, 0, 67, 49, 0, 0, 0, 0, 0, 0, 0, 0] ++
          ([5, 0] ++ [0, 0, 0, 0, 0, 0, 0, 0, 0, 0, 0, 0] ++
            [10]))).isNone = true ∧
    (parse ([4, 1, 0, 0, 67, 49, 0, 0, 0, 0, 0, 0, 0, 0] ++
        ([5, 0] ++ [0, 0, 0, 0, 0, 0, 0, 0, 0, 0, 0, 0] ++ [10]))).map
      (fun r => r.signals.length) = some 1 := by
  exact ⟨by decide, by decide⟩

/-- **C9 (amended).** The consumer rejects (acks without any state
update) exactly the messages whose scale factor is absent, unparseable,
**or parses to exactly zero** — a zero scale factor is excluded, not
treated as valid data; only a message with a non-zero coercible scale
factor, a string device id, a coercible sampling rate, and a decodable
payload with at least one sample reaches `_upsert_user_state`. -/
theorem C9_scale_factor_gate {R : Type} (cfg : Config) (apps : List String)
    (userStates : String → Option UserStateM)
    (results : String → String → Option R) (h : MsgHeaders)
    (body : List Nat) :
    (coerceFloat [h.lsb_to_volts, h.lsb_to_volts_str] false = some 0 →
      consumeMessage cfg apps userStates results h body = none) ∧
    (coerceFloat [h.lsb_to_volts, h.lsb_to_volts_str] false = none →
      consumeMessage cfg apps userStates results h body = none) ∧
    (∀ uid sr l frame, h.user_id = PyVal.vStr uid →
      coerceFloat [h.sampling_rate] false = some sr →
      coerceFloat [h.lsb_to_volts, h.lsb_to_volts_str] false = some l →
      l ≠ 0 → parse body = some frame → frame.signals.length ≠ 0 →
      consumeMessage cfg apps userStates results h body =
        some (upsertUserState cfg apps userStates results uid sr l
          frame.ch_names frame.ch_types
          ⟨frame.ch_names.length, frame.signals⟩
          ⟨frame.ch_names.length, frame.impedance⟩)) := by
  refine ⟨?_, ?_, ?_⟩
  · intro hl
    cases huid : h.user_id <;>
      cases hsr : coerceFloat [h.sampling_rate] false <;>
      simp [consumeMessage, hl, huid, hsr]
  · intro hl
    cases huid : h.user_id <;>
      cases hsr : coerceFloat [h.sampling_rate] false <;>
      simp [consumeMessage, hl, huid, hsr]
  · intro uid sr l frame huid hsr hl hlne hp hn
    simp only [consumeMessage, huid, hsr, hl, hp, if_neg hlne, if_neg hn]

unseal Rat.add Rat.mul Rat.inv in
/-- **C9 witness.** A scale factor arriving as the numeric string
`"0.0"` coerces to exactly zero, and the message is excluded with no
state update. -/
theorem C9_scale_factor_gate_witness :
    consumeMessage (R := ℕ) Config.default ["a1"] (fun _ => none)
        (fun _ _ => none)
        ⟨PyVal.vStr "u", PyVal.vFloat 256, PyVal.vStr "0.0", PyVal.vNone⟩
        [4, 0, 0, 0] = none :=
  (C9_scale_factor_gate Config.default ["a1"] (fun _ => none)
    (fun _ _ => none)
    ⟨PyVal.vStr "u", PyVal.vFloat 256, PyVal.vStr "0.0", PyVal.vNone⟩
    [4, 0, 0, 0]).1 (by decide)

end EEG
